import Mathlib

/-!
Shallow embedding of the selection-resolution engine and the download
orchestrator of the quickemu_space repository (src/src/creation.rs,
src/src/creation/options.rs, src/src/creation/download.rs), together with
theorems settling the frozen claims about them.

Pure Rust functions become Lean functions; the mutating methods on
`OptionSelection` and `DownloadStatus` become explicit state-passing
functions; Rust panics (`unwrap` / `expect`) are modelled by `Option`
results (`none` = panic).
-/

set_option maxHeartbeats 1000000

/-- Models Rust `Option::is_none_or`: `true` when the option is `none`,
otherwise the predicate applied to the contained value. -/
def is_none_or {α : Type} (o : Option α) (p : α → Bool) : Bool :=
  match o with
  | none => true
  | some a => p a

/-- Models Rust `char::to_ascii_lowercase`: lower-cases ASCII uppercase
letters and leaves every other character unchanged. -/
def to_ascii_lowercase (c : Char) : Char :=
  if 'A' ≤ c ∧ c ≤ 'Z' then Char.ofNat (c.toNat + 32) else c

/-- Models Rust `char::is_alphanumeric` on the ASCII fragment (every
architecture display string handled by the program is ASCII). -/
def char_is_alphanumeric (c : Char) : Bool :=
  c.isAlpha || c.isDigit

/-- Auxiliary worker for `dedupFirstBy`: drops every element whose key was
already seen, keeping first occurrences in order. -/
def dedupFirstByAux {α β : Type} [DecidableEq β] (key : α → β) : List β → List α → List α
  | _, [] => []
  | seen, a :: as =>
    if key a ∈ seen then dedupFirstByAux key seen as
    else a :: dedupFirstByAux key (key a :: seen) as

/-- Models itertools `unique_by`: keeps the first element carrying each key,
preserving the order of first occurrences. -/
def dedupFirstBy {α β : Type} [DecidableEq β] (key : α → β) (l : List α) : List α :=
  dedupFirstByAux key [] l

/-- Models itertools `unique`: de-duplication by value keeping first
occurrences in order. -/
def uniqueList {α : Type} [DecidableEq α] (l : List α) : List α :=
  dedupFirstBy id l

/-! ### Data model (quickget_core / quickemu_core data, modelled from the spec:
those crates are external dependencies, not part of src/). -/

/-- Modelled from the spec: machine sub-variant of the x86_64 architecture tag
in the external quickemu_core crate; the source only names `Standard`. -/
inductive X86_64Machine : Type
  | standard
deriving DecidableEq

/-- Modelled from the spec: machine sub-variant of the aarch64 architecture tag. -/
inductive AArch64Machine : Type
  | standard
deriving DecidableEq

/-- Modelled from the spec: machine sub-variant of the riscv64 architecture tag. -/
inductive Riscv64Machine : Type
  | standard
deriving DecidableEq

/-- Modelled from the spec: the architecture tag, an enumerated variant
parameterized by a machine-type sub-variant. -/
inductive Arch : Type
  | x86_64 (machine : X86_64Machine)
  | aarch64 (machine : AArch64Machine)
  | riscv64 (machine : Riscv64Machine)
deriving DecidableEq

/-- Modelled from the spec: the `Display` form of an architecture tag in the
external quickemu_core crate; the spec names the display form
"Standard x86_64" for the standard x86_64 machine. -/
def Arch.display : Arch → String
  | .x86_64 .standard => "Standard x86_64"
  | .aarch64 .standard => "Standard aarch64"
  | .riscv64 .standard => "Standard riscv64"

/-- Modelled from the spec: one ReleaseConfig of an OS entry — a release
label, an optional edition label and an architecture tag. -/
structure Config : Type where
  release : String
  edition : Option String
  arch : Arch
deriving DecidableEq

/-- Modelled from the spec: an OS catalog entry with its identifier, display
name, optional homepage and ordered list of ReleaseConfig variants. -/
structure OS : Type where
  name : String
  pretty_name : String
  homepage : Option String
  releases : List Config
deriving DecidableEq

/-! ### SelectableComboBox (src/src/creation.rs lines 164-222). -/

/-- Embedding of `SelectableComboBox<T>`: the iced `combo_box::State`
reduces to its list of options, plus the current optional selection. -/
structure SelectableComboBox (α : Type) : Type where
  options : List α
  selected : Option α
deriving DecidableEq

/-- Embedding of `SelectableComboBox::new_empty`. -/
def SelectableComboBox.new_empty {α : Type} : SelectableComboBox α :=
  { options := [], selected := none }

/-- Embedding of `SelectableComboBox::try_select`: selects the value only
when it is one of the current options. -/
def SelectableComboBox.try_select {α : Type} [DecidableEq α]
    (cb : SelectableComboBox α) (selected : α) : SelectableComboBox α :=
  if selected ∈ cb.options then { cb with selected := some selected } else cb

/-- Embedding of `SelectableComboBox::select`: stores the selection
unconditionally. -/
def SelectableComboBox.select {α : Type} (cb : SelectableComboBox α)
    (selected : Option α) : SelectableComboBox α :=
  { cb with selected := selected }

/-- Embedding of `SelectableComboBox::set_values`: clears the selection when
the previously selected value is absent from the new entries, then replaces
the options with the new entries. -/
def SelectableComboBox.set_values {α : Type} [DecidableEq α]
    (cb : SelectableComboBox α) (new_entries : List α) : SelectableComboBox α :=
  let selected :=
    match cb.selected with
    | some s => if s ∈ new_entries then some s else none
    | none => none
  { options := new_entries, selected := selected }

/-- Embedding of `SelectableComboBox::is_empty`. -/
def SelectableComboBox.is_empty {α : Type} (cb : SelectableComboBox α) : Bool :=
  cb.options.isEmpty

/-! ### OptionSelection (src/src/creation.rs lines 224-507). -/

/-- Embedding of `OptionSelection`: the selection state for one OS entry.
`directory` models the `PathBuf` as a string; `ram` keeps the `f64` byte
count abstractly as a `Float` (no claim touches it). -/
structure OptionSelection : Type where
  selected_os : OS
  release_list : SelectableComboBox String
  edition_list : SelectableComboBox String
  arch_list : SelectableComboBox Arch
  cpu_cores : Nat
  ram : Float
  vm_name : Option String
  default_vm_name : Option String
  directory : String

/-- The release projection built inside `OptionSelection::refresh_releases`
before de-duplication: filter the OS configs by the current architecture and
edition selections and project to the release label. -/
def releaseProjection (os : OS) (archSel : Option Arch) (editionSel : Option String) :
    List String :=
  ((os.releases.filter fun config =>
        is_none_or archSel fun arch => decide (arch = config.arch)).filter fun config =>
      is_none_or editionSel fun edition => decide (some edition = config.edition)).map
    fun config => config.release

/-- The release candidate computation inside `OptionSelection::refresh_releases`:
the release projection, de-duplicated keeping first occurrences (itertools
`unique`). -/
def releaseCandidates (os : OS) (archSel : Option Arch) (editionSel : Option String) :
    List String :=
  uniqueList (releaseProjection os archSel editionSel)

/-- The edition projection built inside `OptionSelection::refresh_editions`
before de-duplication: filter by the current architecture and release
selections and keep the configs' edition labels (dropping configs without
one). -/
def editionProjection (os : OS) (archSel : Option Arch) (releaseSel : Option String) :
    List String :=
  ((os.releases.filter fun config =>
        is_none_or archSel fun arch => decide (arch = config.arch)).filter fun config =>
      is_none_or releaseSel fun release => decide (release = config.release)).filterMap
    fun config => config.edition

/-- The edition candidate computation inside `OptionSelection::refresh_editions`:
the edition projection, de-duplicated keeping first occurrences. -/
def editionCandidates (os : OS) (archSel : Option Arch) (releaseSel : Option String) :
    List String :=
  uniqueList (editionProjection os archSel releaseSel)

/-- The architecture projection built inside
`OptionSelection::refresh_architectures` before de-duplication: filter by the
current release and edition selections and project to the architecture tag. -/
def archProjection (os : OS) (releaseSel : Option String) (editionSel : Option String) :
    List Arch :=
  ((os.releases.filter fun config =>
        is_none_or releaseSel fun release => decide (release = config.release)).filter
      fun config =>
        is_none_or editionSel fun edition => decide (some edition = config.edition)).map
    fun config => config.arch

/-- The architecture candidate computation inside
`OptionSelection::refresh_architectures`: the architecture projection,
de-duplicated by the architecture's display string (itertools `unique_by`). -/
def archCandidates (os : OS) (releaseSel : Option String) (editionSel : Option String) :
    List Arch :=
  dedupFirstBy Arch.display (archProjection os releaseSel editionSel)

/-- Embedding of `OptionSelection::refresh_releases`. -/
def refresh_releases (s : OptionSelection) : OptionSelection :=
  { s with
    release_list :=
      s.release_list.set_values
        (releaseCandidates s.selected_os s.arch_list.selected s.edition_list.selected) }

/-- Embedding of `OptionSelection::refresh_editions`. -/
def refresh_editions (s : OptionSelection) : OptionSelection :=
  { s with
    edition_list :=
      s.edition_list.set_values
        (editionCandidates s.selected_os s.arch_list.selected s.release_list.selected) }

/-- Embedding of `OptionSelection::refresh_architectures`. -/
def refresh_architectures (s : OptionSelection) : OptionSelection :=
  { s with
    arch_list :=
      s.arch_list.set_values
        (archCandidates s.selected_os s.release_list.selected s.edition_list.selected) }

/-- The architecture-label normalization inside `default_vm_name`
(src/src/creation.rs lines 551-562): replace spaces by underscores, ASCII
lower-case the rest, then keep only alphanumeric characters and underscores. -/
def snake_case_arch (archDisplay : String) : String :=
  String.mk
    (((archDisplay.data.map fun c => if c = ' ' then '_' else to_ascii_lowercase c).filter
      fun c => char_is_alphanumeric c || c == '_'))

/-- Embedding of the free function `default_vm_name` in src/src/creation.rs:
OS identifier, release, the edition when present, and the normalized
architecture label, joined by dashes in that order. -/
def default_vm_name (os : OS) (release : String) (edition : Option String)
    (arch : Arch) : String :=
  let vm_name := os.name ++ "-" ++ release
  let vm_name :=
    match edition with
    | some edition => vm_name ++ "-" ++ edition
    | none => vm_name
  vm_name ++ "-" ++ snake_case_arch arch.display

/-- Embedding of `OptionSelection::set_default_vm_name`: populate the derived
default name exactly when release and architecture are selected and either an
edition is selected or the edition candidate list is empty. -/
def set_default_vm_name (s : OptionSelection) : OptionSelection :=
  { s with
    default_vm_name :=
      match s.release_list.selected, s.edition_list.selected,
          s.edition_list.is_empty, s.arch_list.selected with
      | some release, edition, no_editions, some arch =>
        if edition.isSome || no_editions then
          some (default_vm_name s.selected_os release edition arch)
        else none
      | _, _, _, _ => none }

/-- Embedding of `OptionSelection::select_release`: store the new release
selection, recompute editions then architectures, then the default name. -/
def select_release (s : OptionSelection) (release : String) :
    OptionSelection :=
  let s := { s with release_list := s.release_list.select (some release) }
  let s := refresh_editions s
  let s := refresh_architectures s
  set_default_vm_name s

/-- Embedding of `OptionSelection::select_edition`: store the new edition
selection, recompute releases then architectures, then the default name. -/
def select_edition (s : OptionSelection) (edition : String) :
    OptionSelection :=
  let s := { s with edition_list := s.edition_list.select (some edition) }
  let s := refresh_releases s
  let s := refresh_architectures s
  set_default_vm_name s

/-- Embedding of `OptionSelection::select_arch`: store the new architecture
selection, recompute releases then editions, then the default name. -/
def select_arch (s : OptionSelection) (arch : Arch) :
    OptionSelection :=
  let s := { s with arch_list := s.arch_list.select (some arch) }
  let s := refresh_releases s
  let s := refresh_editions s
  set_default_vm_name s

/-- The config lookup inside `OptionSelection::to_instance`
(src/src/creation.rs lines 269-284): the first OS config whose release equals
the selected release, whose edition equals the selected edition and whose
architecture equals the selected architecture. `none` models a panic: the
`unwrap` on a missing release/architecture selection evaluated inside the
filters, or the final `expect "A config should be present"` when no config
matches — the Rust function never returns an error value in these cases. -/
def to_instance_config (s : OptionSelection) : Option Config :=
  match s.release_list.selected, s.arch_list.selected with
  | some release, some arch =>
    ((s.selected_os.releases.filter fun config =>
          decide (release = config.release)).filter fun config =>
        decide (s.edition_list.selected = config.edition)).find?
      fun config => decide (arch = config.arch)
  | _, _ => none

/-- The filesystem environment read by `OptionSelection::can_go_next`:
`existsAt p` models `Path::exists` for the path string `p`. -/
structure FileSystem : Type where
  existsAt : String → Bool

/-- Embedding of `OptionSelection::can_go_next` (src/src/creation.rs lines
500-506): the commit guard over the effective VM name. `Path::join` of the
directory and a relative name is modelled as slash-concatenation, Rust
`str::is_empty` as emptiness of the character data, and `str::contains('/')`
as membership in the character data. -/
def can_go_next (fs : FileSystem) (s : OptionSelection)
    (vm_name : String) : Bool :=
  !vm_name.data.isEmpty
    && !vm_name.data.contains '/'
    && s.default_vm_name.isSome
    && fs.existsAt s.directory
    && !fs.existsAt (s.directory ++ "/" ++ vm_name)

/-! ### Duplicated selection engine (src/src/creation/options.rs). The
`OptionSelection` struct there has field-for-field the same shape, so the
duplicated functions are embedded over the same state type under
`options_`-prefixed names. -/

/-- Embedding of the free function `default_vm_name` in
src/src/creation/options.rs lines 343-366 (the duplicated copy). -/
def options_default_vm_name (os : OS) (release : String) (edition : Option String)
    (arch : Arch) : String :=
  let vm_name := os.name ++ "-" ++ release
  let vm_name :=
    match edition with
    | some edition => vm_name ++ "-" ++ edition
    | none => vm_name
  vm_name ++ "-" ++ snake_case_arch arch.display

/-- Embedding of `OptionSelection::set_default_vm_name` in
src/src/creation/options.rs lines 202-216 (the duplicated copy). -/
def options_set_default_vm_name (s : OptionSelection) : OptionSelection :=
  { s with
    default_vm_name :=
      match s.release_list.selected, s.edition_list.selected,
          s.edition_list.is_empty, s.arch_list.selected with
      | some release, edition, no_editions, some arch =>
        if edition.isSome || no_editions then
          some (options_default_vm_name s.selected_os release edition arch)
        else none
      | _, _, _, _ => none }

/-- Embedding of `OptionSelection::can_go_next` in src/src/creation/options.rs
lines 334-340 (the duplicated copy). -/
def options_can_go_next (fs : FileSystem) (s : OptionSelection)
    (vm_name : String) : Bool :=
  !vm_name.data.isEmpty
    && !vm_name.data.contains '/'
    && s.default_vm_name.isSome
    && fs.existsAt s.directory
    && !fs.existsAt (s.directory ++ "/" ++ vm_name)

/-! ### Download orchestrator (src/src/creation/download.rs). -/

/-- Embedding of the `Download` struct: per-transfer state — received bytes,
optional total size and the completion flag. -/
structure Download : Type where
  name : String
  current_size : Nat
  total_size : Option Nat
  done : Bool
deriving DecidableEq

/-- The initial per-transfer state built by `Download::new` (lines 254-260):
zero bytes received, unknown total size, not done. -/
def Download.init (name : String) : Download :=
  { name := name, current_size := 0, total_size := none, done := false }

/-- Embedding of the `DownloadMessage` enum: the events a transfer emits. -/
inductive DownloadMessage : Type
  | gotTotalSize (size : Nat)
  | addedChunk (size : Nat)
  | done
  | error (e : String)
deriving DecidableEq

/-- Embedding of the `Message` enum of the download page; the
`SpecificDownloadMessage` wrapper is inlined as the two fields it carries. -/
inductive DownloadsMessage : Type
  | cancelDownloads
  | finalizeDownloads
  | specific (id : Nat) (msg : DownloadMessage)
deriving DecidableEq

/-- The observable effect of one `DownloadStatus::update` call: the returned
iced task, abstracted to what it does. -/
inductive UpdateEffect : Type
  | noEffect
  | abortAllAndReturnToSelect
  | finalizeInstance
  | surfaceError (e : String)
deriving DecidableEq

/-- Embedding of `DownloadStatus::update` (lines 41-102) restricted to its
effect on the per-transfer states: `CancelDownloads` aborts every transfer
task and navigates back, `Finalize` starts finalization, and a
transfer-specific message folds into that transfer's state — except a
terminal `Error`, which leaves every state untouched and surfaces the error.
`none` models the `expect` panic on an out-of-range transfer id. -/
def downloadStatusUpdate (downloads : List Download) (msg : DownloadsMessage) :
    Option (List Download × UpdateEffect) :=
  match msg with
  | .cancelDownloads => some (downloads, .abortAllAndReturnToSelect)
  | .finalizeDownloads => some (downloads, .finalizeInstance)
  | .specific id m =>
    match downloads[id]? with
    | none => none
    | some download =>
      match m with
      | .done => some (downloads.set id { download with done := true }, .noEffect)
      | .gotTotalSize size =>
        some (downloads.set id { download with total_size := some size }, .noEffect)
      | .addedChunk size =>
        some (downloads.set id { download with current_size := download.current_size + size },
          .noEffect)
      | .error e => some (downloads, .surfaceError e)

/-- The aggregate completion predicate of `DownloadStatus::view` (line 120):
the Next/Finalize transition is enabled exactly when every transfer state
reports done. -/
def downloadsComplete (downloads : List Download) : Bool :=
  downloads.all fun dl => dl.done

/-- The per-chunk step of the transfer stream in `Download::new` (lines
233-237): a successfully received and written chunk becomes an `AddedChunk`
event with the chunk's byte length; a network or file-write failure on that
chunk becomes an `Error` event (lines 243-244 map the `Err` case). -/
def chunkMessage (chunk : Except String Nat) : DownloadMessage :=
  match chunk with
  | .ok n => .addedChunk n
  | .error e => .error e

/-- The event sequence one transfer emits, from `Download::new` (lines
219-252): if the initial request/file creation failed, the stream is the
single terminal `Error`; otherwise it is `GotTotalSize` (the content length,
`unwrap_or 0`), then one event per chunk via `chunkMessage`, then the
unconditionally chained `Done`. `spawned` models the request-send /
file-create result; each element of `chunks` models one item of
`bytes_stream` combined with its file write. -/
def downloadEvents (spawned : Except String Unit) (contentLength : Option Nat)
    (chunks : List (Except String Nat)) : List DownloadMessage :=
  match spawned with
  | .error e => [.error e]
  | .ok _ => .gotTotalSize (contentLength.getD 0) :: (chunks.map chunkMessage ++ [.done])

/-- Folds a sequence of per-transfer events through `downloadStatusUpdate`,
keeping only the evolving transfer states (`none` once any update panics). -/
def applyEvents (downloads : List Download) (events : List (Nat × DownloadMessage)) :
    Option (List Download) :=
  events.foldl
    (fun acc ev => acc.bind fun dls =>
      (downloadStatusUpdate dls (.specific ev.1 ev.2)).map Prod.fst)
    (some downloads)

/-! ### Lemmas about first-occurrence de-duplication. -/

theorem dedupFirstByAux_sublist {α β : Type} [DecidableEq β] (key : α → β)
    (seen : List β) (l : List α) : List.Sublist (dedupFirstByAux key seen l) l := by
  induction l generalizing seen with
  | nil => simp [dedupFirstByAux]
  | cons a as ih =>
    simp only [dedupFirstByAux]
    split
    · exact (ih seen).trans (List.sublist_cons_self a as)
    · exact List.Sublist.cons₂ a (ih _)

theorem mem_dedupFirstByAux_not_seen {α β : Type} [DecidableEq β] (key : α → β)
    (seen : List β) (l : List α) (a : α) (ha : a ∈ dedupFirstByAux key seen l) :
    key a ∉ seen := by
  induction l generalizing seen with
  | nil => simp [dedupFirstByAux] at ha
  | cons b bs ih =>
    simp only [dedupFirstByAux] at ha
    split at ha
    · exact ih seen ha
    · rcases List.mem_cons.mp ha with h | h
      · subst h; assumption
      · have hy := ih _ h
        intro hmem
        exact hy (List.mem_cons_of_mem _ hmem)

theorem mem_dedupFirstByAux {α β : Type} [DecidableEq β] (key : α → β)
    (hinj : ∀ x y, key x = key y → x = y) (seen : List β) (l : List α) (a : α) :
    a ∈ dedupFirstByAux key seen l ↔ a ∈ l ∧ key a ∉ seen := by
  induction l generalizing seen with
  | nil => simp [dedupFirstByAux]
  | cons b bs ih =>
    simp only [dedupFirstByAux]
    split
    case isTrue hb =>
      rw [ih]
      constructor
      · rintro ⟨h1, h2⟩
        exact ⟨List.mem_cons_of_mem _ h1, h2⟩
      · rintro ⟨h1, h2⟩
        rcases List.mem_cons.mp h1 with rfl | h1
        · exact absurd hb h2
        · exact ⟨h1, h2⟩
    case isFalse hb =>
      rw [List.mem_cons, ih]
      constructor
      · rintro (rfl | ⟨h1, h2⟩)
        · exact ⟨List.mem_cons_self _ _, hb⟩
        · refine ⟨List.mem_cons_of_mem _ h1, fun hc => h2 (List.mem_cons_of_mem _ hc)⟩
      · rintro ⟨h1, h2⟩
        rcases List.mem_cons.mp h1 with rfl | h1
        · exact Or.inl rfl
        · by_cases hk : key a = key b
          · exact Or.inl (hinj a b hk)
          · exact Or.inr ⟨h1, by simp [List.mem_cons, hk, h2]⟩

theorem dedupFirstByAux_pairwise {α β : Type} [DecidableEq β] (key : α → β)
    (seen : List β) (l : List α) :
    (dedupFirstByAux key seen l).Pairwise fun x y => key x ≠ key y := by
  induction l generalizing seen with
  | nil => simp [dedupFirstByAux]
  | cons b bs ih =>
    simp only [dedupFirstByAux]
    split
    · exact ih seen
    · refine List.Pairwise.cons ?_ (ih _)
      intro y hy hk
      have hns := mem_dedupFirstByAux_not_seen key _ _ y hy
      exact hns (by simp [← hk])

theorem dedupFirstBy_nodup {α β : Type} [DecidableEq β] (key : α → β) (l : List α) :
    (dedupFirstBy key l).Nodup := by
  have h := dedupFirstByAux_pairwise key [] l
  exact h.imp fun hxy heq => absurd (congrArg key heq) hxy

theorem dedupFirstBy_sublist {α β : Type} [DecidableEq β] (key : α → β) (l : List α) :
    List.Sublist (dedupFirstBy key l) l :=
  dedupFirstByAux_sublist key [] l

theorem dedupFirstByAux_find? {α β : Type} [DecidableEq β] (key : α → β)
    (seen : List β) (l : List α) (k : β) (hk : k ∉ seen) :
    (dedupFirstByAux key seen l).find? (fun x => decide (key x = k)) =
      l.find? (fun x => decide (key x = k)) := by
  induction l generalizing seen with
  | nil => simp [dedupFirstByAux]
  | cons b bs ih =>
    simp only [dedupFirstByAux]
    by_cases hbk : key b = k
    · have hb : key b ∉ seen := by rw [hbk]; exact hk
      rw [if_neg hb, List.find?_cons_of_pos _ (by simp [hbk]),
        List.find?_cons_of_pos _ (by simp [hbk])]
    · split
      · rw [ih seen hk, List.find?_cons_of_neg _ (by simp [hbk])]
      · rw [List.find?_cons_of_neg _ (by simp [hbk]), List.find?_cons_of_neg _ (by simp [hbk])]
        refine ih _ ?_
        intro hmem
        rcases List.mem_cons.mp hmem with h | h
        · exact hbk h.symm
        · exact hk h

theorem dedupFirstBy_find? {α β : Type} [DecidableEq β] (key : α → β) (l : List α) (k : β) :
    (dedupFirstBy key l).find? (fun x => decide (key x = k)) =
      l.find? (fun x => decide (key x = k)) :=
  dedupFirstByAux_find? key [] l k (by simp)

theorem mem_dedupFirstBy {α β : Type} [DecidableEq β] (key : α → β)
    (hinj : ∀ x y, key x = key y → x = y) (l : List α) (a : α) :
    a ∈ dedupFirstBy key l ↔ a ∈ l := by
  rw [dedupFirstBy, mem_dedupFirstByAux key hinj]
  simp

theorem mem_uniqueList {α : Type} [DecidableEq α] (l : List α) (a : α) :
    a ∈ uniqueList l ↔ a ∈ l :=
  mem_dedupFirstBy id (fun _ _ h => h) l a

theorem uniqueList_nodup {α : Type} [DecidableEq α] (l : List α) : (uniqueList l).Nodup :=
  dedupFirstBy_nodup id l

theorem uniqueList_sublist {α : Type} [DecidableEq α] (l : List α) :
    List.Sublist (uniqueList l) l :=
  dedupFirstBy_sublist id l

theorem uniqueList_find? {α : Type} [DecidableEq α] (l : List α) (k : α) :
    (uniqueList l).find? (fun x => decide (x = k)) = l.find? (fun x => decide (x = k)) :=
  dedupFirstBy_find? id l k

/-! ### Lemmas about `SelectableComboBox::set_values`. -/

theorem set_values_options {α : Type} [DecidableEq α] (cb : SelectableComboBox α)
    (l : List α) : (cb.set_values l).options = l := rfl

theorem set_values_none_selected {α : Type} [DecidableEq α] (opts l : List α) :
    (SelectableComboBox.set_values ⟨opts, none⟩ l).selected = none := rfl

theorem set_values_some_selected {α : Type} [DecidableEq α] (opts l : List α) (b : α) :
    (SelectableComboBox.set_values ⟨opts, some b⟩ l).selected =
      if b ∈ l then some b else none := rfl

theorem set_values_selected_mem {α : Type} [DecidableEq α] (cb : SelectableComboBox α)
    (l : List α) (a : α) (h : (cb.set_values l).selected = some a) : a ∈ l := by
  obtain ⟨opts, sel⟩ := cb
  cases sel with
  | none => rw [set_values_none_selected] at h; cases h
  | some b =>
    rw [set_values_some_selected] at h
    by_cases hb : b ∈ l
    · rw [if_pos hb] at h
      injection h with h
      exact h ▸ hb
    · rw [if_neg hb] at h
      cases h

theorem set_values_selected_cases {α : Type} [DecidableEq α] (cb : SelectableComboBox α)
    (l : List α) :
    (cb.set_values l).selected = cb.selected ∨ (cb.set_values l).selected = none := by
  obtain ⟨opts, sel⟩ := cb
  cases sel with
  | none => exact Or.inr (set_values_none_selected opts l)
  | some b =>
    rw [set_values_some_selected]
    by_cases hb : b ∈ l
    · exact Or.inl (if_pos hb)
    · exact Or.inr (if_neg hb)

theorem set_values_cleared {α : Type} [DecidableEq α] (cb : SelectableComboBox α)
    (l : List α) (a : α) (ha : cb.selected = some a) (hmem : a ∉ l) :
    (cb.set_values l).selected = none := by
  obtain ⟨opts, sel⟩ := cb
  cases sel with
  | none => cases ha
  | some b =>
    injection ha with ha
    subst ha
    rw [set_values_some_selected, if_neg hmem]

theorem set_values_kept {α : Type} [DecidableEq α] (cb : SelectableComboBox α)
    (l : List α) (a : α) (ha : cb.selected = some a) (hmem : a ∈ l) :
    (cb.set_values l).selected = some a := by
  obtain ⟨opts, sel⟩ := cb
  cases sel with
  | none => cases ha
  | some b =>
    injection ha with ha
    subst ha
    rw [set_values_some_selected, if_pos hmem]

/-! ### Claim theorems. -/

/-- C6: `default_vm_name` is a pure function concatenating OS identifier,
release, the edition when present, and the normalized architecture label,
separated by dashes in that fixed order; the normalization replaces every
space by an underscore, ASCII lower-cases, and strips every character that is
neither alphanumeric nor underscore, so every normalized architecture label —
in particular the one of the display form "Standard x86_64" — contains no
space, no uppercase letter, and no punctuation other than underscore. -/
theorem c6_default_vm_name_format (os : OS) (release : String)
    (edition : Option String) (arch : Arch) :
    default_vm_name os release edition arch =
        os.name ++ "-" ++ release ++
          (match edition with
            | some e => "-" ++ e
            | none => "") ++ ("-" ++ snake_case_arch arch.display)
      ∧ (∀ a : Arch, ((snake_case_arch a.display).data.all fun c =>
            c != ' ' && !c.isUpper && (char_is_alphanumeric c || c == '_')) = true)
      ∧ snake_case_arch "Standard x86_64" = "standard_x86_64" := by
  refine ⟨?_, ?_, ?_⟩
  · cases edition with
    | none => simp [default_vm_name, String.append_assoc]
    | some e => simp [default_vm_name, String.append_assoc]
  · intro a
    rcases a with m | m | m <;> cases m <;> decide
  · decide

/-- C10: the duplicated free functions `default_vm_name` in creation.rs and
creation/options.rs are extensionally equal, and the two duplicated
`set_default_vm_name` methods populate the default-name field under the same
condition with the same value. -/
theorem c10_duplicated_engine_equal :
    (∀ (os : OS) (release : String) (edition : Option String) (arch : Arch),
        default_vm_name os release edition arch =
          options_default_vm_name os release edition arch)
      ∧ ∀ s : OptionSelection, set_default_vm_name s = options_set_default_vm_name s :=
  ⟨fun _ _ _ _ => rfl, fun _ => rfl⟩

/-- C8: the commit guard `can_go_next` permits a commit exactly when the
effective VM name is non-empty, contains no path-separator character, a
default VM name exists, the destination directory exists, and no filesystem
entry already exists at directory/name. -/
theorem c8_can_go_next_iff (fs : FileSystem) (s : OptionSelection) (vm_name : String) :
    can_go_next fs s vm_name = true ↔
      vm_name ≠ "" ∧ '/' ∉ vm_name.data ∧ s.default_vm_name.isSome = true ∧
        fs.existsAt s.directory = true ∧
        fs.existsAt (s.directory ++ "/" ++ vm_name) = false := by
  have hempty : vm_name.data.isEmpty = false ↔ vm_name ≠ "" := by
    rw [List.isEmpty_eq_false]
    constructor
    · intro h hv
      subst hv
      simp at h
    · intro h hd
      exact h (String.ext hd)
  simp only [can_go_next, Bool.and_eq_true, Bool.not_eq_true']
  constructor
  · rintro ⟨⟨⟨⟨h1, h2⟩, h3⟩, h4⟩, h5⟩
    refine ⟨hempty.mp h1, ?_, h3, h4, h5⟩
    intro hmem
    rw [Bool.eq_false_iff] at h2
    exact h2 (List.elem_iff.mpr hmem)
  · rintro ⟨h1, h2, h3, h4, h5⟩
    refine ⟨⟨⟨⟨hempty.mpr h1, ?_⟩, h3⟩, h4⟩, h5⟩
    rw [Bool.eq_false_iff]
    intro hc
    exact h2 (List.elem_iff.mp hc)

/-- C9: when the orchestrator processes a terminal Error event from one
transfer within bounds, it surfaces that error to the session owner, every
transfer state (the erroring one included) is left unchanged, and no abort of
the sibling transfer tasks is triggered. -/
theorem c9_error_event_isolated (downloads : List Download) (id : Nat) (e : String)
    (h : id < downloads.length) :
    downloadStatusUpdate downloads (.specific id (.error e)) =
      some (downloads, .surfaceError e) := by
  simp [downloadStatusUpdate, List.getElem?_eq_getElem h]

/-- Witness for C9 at a concrete two-transfer state. -/
theorem c9_error_event_isolated_witness :
    0 < [Download.init "disk.img", Download.init "firmware.bin"].length
      ∧ downloadStatusUpdate [Download.init "disk.img", Download.init "firmware.bin"]
          (.specific 0 (.error "boom")) =
        some ([Download.init "disk.img", Download.init "firmware.bin"],
          .surfaceError "boom") :=
  ⟨by decide,
    c9_error_event_isolated [Download.init "disk.img", Download.init "firmware.bin"] 0
      "boom" (by decide)⟩

/-- C2 counterexample: a transfer whose stream errors on a chunk still emits
the unconditionally chained Done event, and the orchestrator records no error
in any transfer state, so after folding the full event sequence of a transfer
that emitted an Error the aggregate completion predicate is nevertheless
true. -/
theorem c2_counterexample :
    (DownloadMessage.error "boom" ∈
        downloadEvents (Except.ok ()) (some 400) [Except.error "boom"])
      ∧ (applyEvents [Download.init "disk.img"]
            ((downloadEvents (Except.ok ()) (some 400) [Except.error "boom"]).map
              fun m => (0, m))).map downloadsComplete = some true := by
  decide

/-- C2 amended: the aggregate completion predicate of the download view holds
exactly when every transfer state reports done — transfer states record no
terminal error (errors are surfaced by page navigation instead), so an
erroring transfer does not prevent the aggregate from becoming complete. -/
theorem c2_amended_completion_iff (downloads : List Download) :
    downloadsComplete downloads = true ↔ ∀ d ∈ downloads, d.done = true := by
  simp [downloadsComplete, List.all_eq_true]

/-- C3 counterexample: a chunk-level error is not the last event of the
transfer's emitted sequence — the chained Done event still follows it. -/
theorem c3_counterexample :
    downloadEvents (Except.ok ()) (some 400) [Except.error "boom"] =
        [DownloadMessage.gotTotalSize 400, DownloadMessage.error "boom",
          DownloadMessage.done]
      ∧ (DownloadMessage.error "boom" ∈
          downloadEvents (Except.ok ()) (some 400) [Except.error "boom"])
      ∧ (downloadEvents (Except.ok ()) (some 400) [Except.error "boom"]).getLast? ≠
          some (DownloadMessage.error "boom") := by
  decide

/-- C3 amended: an error before streaming begins (request send or file
creation failure) is the transfer's sole and therefore final event; once
streaming has begun, the final event is always the chained Done — an error on
an individual chunk does not terminate the transfer's event sequence. -/
theorem c3_amended_error_termination (e : String) (contentLength : Option Nat)
    (chunks : List (Except String Nat)) :
    downloadEvents (Except.error e) contentLength chunks = [.error e]
      ∧ (downloadEvents (Except.ok ()) contentLength chunks).getLast? =
          some DownloadMessage.done := by
  refine ⟨rfl, ?_⟩
  show (DownloadMessage.gotTotalSize (contentLength.getD 0) ::
      (chunks.map chunkMessage ++ [DownloadMessage.done])).getLast? =
    some DownloadMessage.done
  rw [show DownloadMessage.gotTotalSize (contentLength.getD 0) ::
        (chunks.map chunkMessage ++ [DownloadMessage.done]) =
      (DownloadMessage.gotTotalSize (contentLength.getD 0) ::
        chunks.map chunkMessage) ++ [DownloadMessage.done] from by simp]
  exact List.getLast?_concat _

/-- The concrete state exhibiting the commit panic: the Alpine-style catalog
of the spec with release "3.18" and architecture aarch64 selected — a
combination matched by zero configs. -/
def c4_state : OptionSelection :=
  { selected_os :=
      { name := "alpine", pretty_name := "Alpine Linux", homepage := none,
        releases :=
          [ { release := "3.19", edition := none, arch := .x86_64 .standard },
            { release := "3.19", edition := none, arch := .aarch64 .standard },
            { release := "3.18", edition := none, arch := .x86_64 .standard } ] }
    release_list := { options := ["3.19", "3.18"], selected := some "3.18" }
    edition_list := { options := [], selected := none }
    arch_list :=
      { options := [.x86_64 .standard, .aarch64 .standard],
        selected := some (.aarch64 .standard) }
    cpu_cores := 4
    ram := 4294967296.0
    vm_name := none
    default_vm_name := some "alpine-3.18-standard_aarch64"
    directory := "/home/user" }

/-- C4 counterexample: at a state whose release, edition and architecture
selections match zero ReleaseConfig entries, the commit lookup yields `none`
— the embedding of the `expect "A config should be present"` panic — rather
than any `NoMatchingConfig` error value (the Rust function has no error
return for this case). -/
theorem c4_counterexample :
    to_instance_config c4_state = none
      ∧ c4_state.release_list.selected = some "3.18"
      ∧ c4_state.arch_list.selected = some (Arch.aarch64 .standard)
      ∧ (c4_state.selected_os.releases.filter fun config =>
            decide ("3.18" = config.release)
              && decide (c4_state.edition_list.selected = config.edition)
              && decide (Arch.aarch64 .standard = config.arch)) = [] := by
  decide

/-- C4 amended: with release and architecture selected, the commit diverges —
`to_instance` panics at the `expect`, modelled by `to_instance_config`
returning `none` — exactly when the three selections together match zero
ReleaseConfig entries of the selected OS; no error result is produced. -/
theorem c4_amended_commit_panics (s : OptionSelection) (release : String) (arch : Arch)
    (hr : s.release_list.selected = some release)
    (ha : s.arch_list.selected = some arch) :
    to_instance_config s = none ↔
      ∀ config ∈ s.selected_os.releases,
        ¬(config.release = release ∧ config.edition = s.edition_list.selected ∧
          config.arch = arch) := by
  simp only [to_instance_config, hr, ha, List.find?_eq_none, List.mem_filter,
    Bool.and_eq_true, decide_eq_true_eq]
  constructor
  · intro h config hmem hc
    exact h config ⟨⟨hmem, hc.1.symm⟩, hc.2.1.symm⟩ hc.2.2.symm
  · intro h config hmem hc
    exact h config hmem.1.1 ⟨hmem.1.2.symm, hmem.2.symm, hc.symm⟩

/-- Witness for the amended C4 at the concrete panic state. -/
theorem c4_amended_commit_panics_witness :
    c4_state.release_list.selected = some "3.18"
      ∧ c4_state.arch_list.selected = some (Arch.aarch64 .standard)
      ∧ (to_instance_config c4_state = none ↔
          ∀ config ∈ c4_state.selected_os.releases,
            ¬(config.release = "3.18"
              ∧ config.edition = c4_state.edition_list.selected
              ∧ config.arch = Arch.aarch64 .standard)) :=
  ⟨by decide, by decide,
    c4_amended_commit_panics c4_state "3.18" (Arch.aarch64 .standard) (by decide)
      (by decide)⟩

/-! ### Spec-side characterizations of the candidate computations. -/

/-- A config agrees with the current architecture selection: a `none`
selection imposes no filter. -/
def archAgrees (sel : Option Arch) (config : Config) : Prop :=
  ∀ a, sel = some a → a = config.arch

/-- A config agrees with the current release selection: a `none` selection
imposes no filter. -/
def releaseAgrees (sel : Option String) (config : Config) : Prop :=
  ∀ r, sel = some r → r = config.release

/-- A config agrees with the current edition selection: a `none` selection
imposes no filter. -/
def editionAgrees (sel : Option String) (config : Config) : Prop :=
  ∀ e, sel = some e → some e = config.edition

theorem is_none_or_eq_true {α : Type} (o : Option α) (p : α → Bool) :
    is_none_or o p = true ↔ ∀ a, o = some a → p a = true := by
  cases o <;> simp [is_none_or]

theorem archAgrees_iff (sel : Option Arch) (config : Config) :
    (is_none_or sel fun arch => decide (arch = config.arch)) = true ↔
      archAgrees sel config := by
  rw [is_none_or_eq_true]
  simp [archAgrees]

theorem releaseAgrees_iff (sel : Option String) (config : Config) :
    (is_none_or sel fun release => decide (release = config.release)) = true ↔
      releaseAgrees sel config := by
  rw [is_none_or_eq_true]
  simp [releaseAgrees]

theorem editionAgrees_iff (sel : Option String) (config : Config) :
    (is_none_or sel fun edition => decide (some edition = config.edition)) = true ↔
      editionAgrees sel config := by
  rw [is_none_or_eq_true]
  simp [editionAgrees]

theorem arch_display_injective : ∀ a b : Arch, a.display = b.display → a = b := by
  intro a b
  rcases a with m | m | m <;> rcases b with m2 | m2 | m2 <;> cases m <;> cases m2 <;> decide

theorem mem_releaseProjection (os : OS) (archSel : Option Arch)
    (editionSel : Option String) (r : String) :
    r ∈ releaseProjection os archSel editionSel ↔
      ∃ config ∈ os.releases,
        archAgrees archSel config ∧ editionAgrees editionSel config ∧
          config.release = r := by
  simp only [releaseProjection, List.mem_map, List.mem_filter]
  constructor
  · rintro ⟨config, ⟨⟨hmem, h1⟩, h2⟩, rfl⟩
    exact ⟨config, hmem, (archAgrees_iff _ _).mp h1, (editionAgrees_iff _ _).mp h2, rfl⟩
  · rintro ⟨config, hmem, h1, h2, rfl⟩
    exact ⟨config, ⟨⟨hmem, (archAgrees_iff _ _).mpr h1⟩, (editionAgrees_iff _ _).mpr h2⟩,
      rfl⟩

theorem mem_editionProjection (os : OS) (archSel : Option Arch)
    (releaseSel : Option String) (e : String) :
    e ∈ editionProjection os archSel releaseSel ↔
      ∃ config ∈ os.releases,
        archAgrees archSel config ∧ releaseAgrees releaseSel config ∧
          config.edition = some e := by
  simp only [editionProjection, List.mem_filterMap, List.mem_filter]
  constructor
  · rintro ⟨config, ⟨⟨hmem, h1⟩, h2⟩, he⟩
    exact ⟨config, hmem, (archAgrees_iff _ _).mp h1, (releaseAgrees_iff _ _).mp h2, he⟩
  · rintro ⟨config, hmem, h1, h2, he⟩
    exact ⟨config, ⟨⟨hmem, (archAgrees_iff _ _).mpr h1⟩, (releaseAgrees_iff _ _).mpr h2⟩,
      he⟩

theorem mem_archProjection (os : OS) (releaseSel : Option String)
    (editionSel : Option String) (a : Arch) :
    a ∈ archProjection os releaseSel editionSel ↔
      ∃ config ∈ os.releases,
        releaseAgrees releaseSel config ∧ editionAgrees editionSel config ∧
          config.arch = a := by
  simp only [archProjection, List.mem_map, List.mem_filter]
  constructor
  · rintro ⟨config, ⟨⟨hmem, h1⟩, h2⟩, rfl⟩
    exact ⟨config, hmem, (releaseAgrees_iff _ _).mp h1, (editionAgrees_iff _ _).mp h2,
      rfl⟩
  · rintro ⟨config, hmem, h1, h2, rfl⟩
    exact ⟨config, ⟨⟨hmem, (releaseAgrees_iff _ _).mpr h1⟩,
      (editionAgrees_iff _ _).mpr h2⟩, rfl⟩

/-! ### Component equations for the select functions. -/

theorem refresh_releases_options (s : OptionSelection) :
    (refresh_releases s).release_list.options =
      releaseCandidates s.selected_os s.arch_list.selected s.edition_list.selected := rfl

theorem refresh_editions_options (s : OptionSelection) :
    (refresh_editions s).edition_list.options =
      editionCandidates s.selected_os s.arch_list.selected s.release_list.selected := rfl

theorem refresh_architectures_options (s : OptionSelection) :
    (refresh_architectures s).arch_list.options =
      archCandidates s.selected_os s.release_list.selected s.edition_list.selected := rfl

theorem select_release_release_list (s : OptionSelection) (release : String) :
    (select_release s release).release_list =
      { options := s.release_list.options, selected := some release } := rfl

theorem select_release_edition_list (s : OptionSelection) (release : String) :
    (select_release s release).edition_list =
      s.edition_list.set_values
        (editionCandidates s.selected_os s.arch_list.selected (some release)) := rfl

theorem select_release_arch_list (s : OptionSelection) (release : String) :
    (select_release s release).arch_list =
      s.arch_list.set_values
        (archCandidates s.selected_os (some release)
          ((s.edition_list.set_values
            (editionCandidates s.selected_os s.arch_list.selected
              (some release))).selected)) := rfl

theorem select_edition_edition_list (s : OptionSelection) (edition : String) :
    (select_edition s edition).edition_list =
      { options := s.edition_list.options, selected := some edition } := rfl

theorem select_edition_release_list (s : OptionSelection) (edition : String) :
    (select_edition s edition).release_list =
      s.release_list.set_values
        (releaseCandidates s.selected_os s.arch_list.selected (some edition)) := rfl

theorem select_edition_arch_list (s : OptionSelection) (edition : String) :
    (select_edition s edition).arch_list =
      s.arch_list.set_values
        (archCandidates s.selected_os
          ((s.release_list.set_values
            (releaseCandidates s.selected_os s.arch_list.selected
              (some edition))).selected)
          (some edition)) := rfl

theorem select_arch_arch_list (s : OptionSelection) (arch : Arch) :
    (select_arch s arch).arch_list =
      { options := s.arch_list.options, selected := some arch } := rfl

theorem select_arch_release_list (s : OptionSelection) (arch : Arch) :
    (select_arch s arch).release_list =
      s.release_list.set_values
        (releaseCandidates s.selected_os (some arch) s.edition_list.selected) := rfl

theorem select_arch_edition_list (s : OptionSelection) (arch : Arch) :
    (select_arch s arch).edition_list =
      s.edition_list.set_values
        (editionCandidates s.selected_os (some arch)
          ((s.release_list.set_values
            (releaseCandidates s.selected_os (some arch)
              s.edition_list.selected)).selected)) := rfl

/-- C5: for every state, each freshly recomputed candidate list is exactly the
projection of the selected OS entry's ReleaseConfig list onto that dimension
filtered by the other two current selections (a `none` selection imposing no
filter), de-duplicated preserving first-seen order: it has no duplicates, it
is a sublist of the projection (so order is preserved), its members are
exactly the projection's members, and the representative kept for every key is
the first projection element with that key. -/
theorem c5_candidate_lists (s : OptionSelection) :
    ((refresh_releases s).release_list.options.Nodup
      ∧ List.Sublist (refresh_releases s).release_list.options
          (releaseProjection s.selected_os s.arch_list.selected s.edition_list.selected)
      ∧ (∀ r, r ∈ (refresh_releases s).release_list.options ↔
          ∃ config ∈ s.selected_os.releases,
            archAgrees s.arch_list.selected config
              ∧ editionAgrees s.edition_list.selected config ∧ config.release = r)
      ∧ ∀ r, (refresh_releases s).release_list.options.find? (fun x => decide (x = r)) =
          (releaseProjection s.selected_os s.arch_list.selected
              s.edition_list.selected).find? fun x => decide (x = r))
    ∧ ((refresh_editions s).edition_list.options.Nodup
      ∧ List.Sublist (refresh_editions s).edition_list.options
          (editionProjection s.selected_os s.arch_list.selected s.release_list.selected)
      ∧ (∀ e, e ∈ (refresh_editions s).edition_list.options ↔
          ∃ config ∈ s.selected_os.releases,
            archAgrees s.arch_list.selected config
              ∧ releaseAgrees s.release_list.selected config
              ∧ config.edition = some e)
      ∧ ∀ e, (refresh_editions s).edition_list.options.find? (fun x => decide (x = e)) =
          (editionProjection s.selected_os s.arch_list.selected
              s.release_list.selected).find? fun x => decide (x = e))
    ∧ ((refresh_architectures s).arch_list.options.Nodup
      ∧ List.Sublist (refresh_architectures s).arch_list.options
          (archProjection s.selected_os s.release_list.selected s.edition_list.selected)
      ∧ (∀ a, a ∈ (refresh_architectures s).arch_list.options ↔
          ∃ config ∈ s.selected_os.releases,
            releaseAgrees s.release_list.selected config
              ∧ editionAgrees s.edition_list.selected config ∧ config.arch = a)
      ∧ ∀ k, (refresh_architectures s).arch_list.options.find?
            (fun x => decide (x.display = k)) =
          (archProjection s.selected_os s.release_list.selected
              s.edition_list.selected).find? fun x => decide (x.display = k)) := by
  refine ⟨⟨?_, ?_, ?_, ?_⟩, ⟨?_, ?_, ?_, ?_⟩, ⟨?_, ?_, ?_, ?_⟩⟩
  · rw [refresh_releases_options]
    exact uniqueList_nodup _
  · rw [refresh_releases_options]
    exact uniqueList_sublist _
  · intro r
    rw [refresh_releases_options, releaseCandidates, mem_uniqueList,
      mem_releaseProjection]
  · intro r
    rw [refresh_releases_options, releaseCandidates, uniqueList_find?]
  · rw [refresh_editions_options]
    exact uniqueList_nodup _
  · rw [refresh_editions_options]
    exact uniqueList_sublist _
  · intro e
    rw [refresh_editions_options, editionCandidates, mem_uniqueList,
      mem_editionProjection]
  · intro e
    rw [refresh_editions_options, editionCandidates, uniqueList_find?]
  · rw [refresh_architectures_options]
    exact dedupFirstBy_nodup _ _
  · rw [refresh_architectures_options]
    exact dedupFirstBy_sublist _ _
  · intro a
    rw [refresh_architectures_options, archCandidates,
      mem_dedupFirstBy Arch.display arch_display_injective, mem_archProjection]
  · intro k
    rw [refresh_architectures_options, archCandidates, dedupFirstBy_find?]

theorem select_selected {α : Type} (cb : SelectableComboBox α) (sel : Option α) :
    (cb.select sel).selected = sel := rfl

theorem select_options {α : Type} (cb : SelectableComboBox α) (sel : Option α) :
    (cb.select sel).options = cb.options := rfl

theorem set_default_vm_name_release_list (s : OptionSelection) :
    (set_default_vm_name s).release_list = s.release_list := rfl

theorem set_default_vm_name_edition_list (s : OptionSelection) :
    (set_default_vm_name s).edition_list = s.edition_list := rfl

theorem set_default_vm_name_arch_list (s : OptionSelection) :
    (set_default_vm_name s).arch_list = s.arch_list := rfl

theorem set_default_vm_name_selected_os (s : OptionSelection) :
    (set_default_vm_name s).selected_os = s.selected_os := rfl

theorem set_default_vm_name_isSome (s : OptionSelection) :
    (set_default_vm_name s).default_vm_name.isSome =
      (s.release_list.selected.isSome && s.arch_list.selected.isSome &&
        (s.edition_list.selected.isSome || s.edition_list.options.isEmpty)) := by
  rcases hr : s.release_list.selected with _ | r <;>
    rcases ha : s.arch_list.selected with _ | a <;>
      rcases he : s.edition_list.selected with _ | e <;>
        cases hie : s.edition_list.options.isEmpty <;>
          simp [set_default_vm_name, SelectableComboBox.is_empty, hr, ha, he, hie]

theorem select_release_eq (s : OptionSelection) (release : String) :
    select_release s release =
      set_default_vm_name
        { s with
          release_list := s.release_list.select (some release),
          edition_list := s.edition_list.set_values
            (editionCandidates s.selected_os s.arch_list.selected (some release)),
          arch_list := s.arch_list.set_values
            (archCandidates s.selected_os (some release)
              ((s.edition_list.set_values
                (editionCandidates s.selected_os s.arch_list.selected
                  (some release))).selected)) } := rfl

theorem select_edition_eq (s : OptionSelection) (edition : String) :
    select_edition s edition =
      set_default_vm_name
        { s with
          edition_list := s.edition_list.select (some edition),
          release_list := s.release_list.set_values
            (releaseCandidates s.selected_os s.arch_list.selected (some edition)),
          arch_list := s.arch_list.set_values
            (archCandidates s.selected_os
              ((s.release_list.set_values
                (releaseCandidates s.selected_os s.arch_list.selected
                  (some edition))).selected)
              (some edition)) } := rfl

theorem select_arch_eq (s : OptionSelection) (arch : Arch) :
    select_arch s arch =
      set_default_vm_name
        { s with
          arch_list := s.arch_list.select (some arch),
          release_list := s.release_list.set_values
            (releaseCandidates s.selected_os (some arch) s.edition_list.selected),
          edition_list := s.edition_list.set_values
            (editionCandidates s.selected_os (some arch)
              ((s.release_list.set_values
                (releaseCandidates s.selected_os (some arch)
                  s.edition_list.selected)).selected)) } := rfl

/-- The default-name invariant of the spec: the derived default VM name is
populated exactly when release and architecture are both selected and either
an edition is selected or the edition candidate list for the current
release/architecture combination is empty. -/
def defaultNameInv (s : OptionSelection) : Prop :=
  s.default_vm_name.isSome = true ↔
    (s.release_list.selected.isSome = true ∧ s.arch_list.selected.isSome = true ∧
      (s.edition_list.selected.isSome = true
        ∨ editionCandidates s.selected_os s.arch_list.selected
            s.release_list.selected = []))

/-- C7: after every select call, the derived default VM name is populated
exactly when release and architecture are both selected and either an edition
is selected or the edition candidate list for the current
release/architecture combination is empty. -/
theorem c7_default_name_population (s : OptionSelection) (release edition : String)
    (arch : Arch) :
    defaultNameInv (select_release s release)
      ∧ defaultNameInv (select_edition s edition)
      ∧ defaultNameInv (select_arch s arch) := by
  refine ⟨?_, ?_, ?_⟩
  · unfold defaultNameInv
    rw [select_release_eq, set_default_vm_name_isSome, set_default_vm_name_release_list,
      set_default_vm_name_edition_list, set_default_vm_name_arch_list,
      set_default_vm_name_selected_os]
    dsimp only
    rcases set_values_selected_cases s.arch_list
        (archCandidates s.selected_os (some release)
          ((s.edition_list.set_values
            (editionCandidates s.selected_os s.arch_list.selected
              (some release))).selected)) with hcase | hcase <;>
      rw [hcase] <;> simp [select_selected, set_values_options, List.isEmpty_iff]
  · unfold defaultNameInv
    rw [select_edition_eq, set_default_vm_name_isSome, set_default_vm_name_release_list,
      set_default_vm_name_edition_list, set_default_vm_name_arch_list,
      set_default_vm_name_selected_os]
    dsimp only
    simp [select_selected, select_options]
  · unfold defaultNameInv
    rw [select_arch_eq, set_default_vm_name_isSome, set_default_vm_name_release_list,
      set_default_vm_name_edition_list, set_default_vm_name_arch_list,
      set_default_vm_name_selected_os]
    dsimp only
    simp [select_selected, set_values_options, List.isEmpty_iff]

/-- The dependent-filter consistency invariant: every dimension's selected
value, when present, is a member of that dimension's last-computed candidate
list. -/
def selectionInvariant (s : OptionSelection) : Prop :=
  (∀ r, s.release_list.selected = some r → r ∈ s.release_list.options)
    ∧ (∀ e, s.edition_list.selected = some e → e ∈ s.edition_list.options)
    ∧ ∀ a, s.arch_list.selected = some a → a ∈ s.arch_list.options

/-- A dimension that previously held the selection `old` has been cleared to
`none` whenever that value is absent from the dimension's freshly recomputed
candidate list. -/
def clearedIfAbsent {α : Type} (old : Option α) (cb : SelectableComboBox α) : Prop :=
  ∀ a, old = some a → a ∉ cb.options → cb.selected = none
/-- The dependent-filter consistency facts holding after each of the three
select calls on an arbitrary state: unconditionally, each of the two
recomputed dimensions never retains a selection outside its fresh candidate
list and is cleared whenever its previous selection vanished from that list;
and whenever the newly selected value was offered in its own dimension's
current candidate list (the only values the combo-box widget emits), the full
three-dimension invariant holds as well. -/
def selectionsConsistentAfter (s : OptionSelection) (release edition : String)
    (arch : Arch) : Prop :=
  ((release ∈ s.release_list.options → selectionInvariant (select_release s release))
    ∧ (∀ e, (select_release s release).edition_list.selected = some e →
        e ∈ (select_release s release).edition_list.options)
    ∧ (∀ a, (select_release s release).arch_list.selected = some a →
        a ∈ (select_release s release).arch_list.options)
    ∧ clearedIfAbsent s.edition_list.selected (select_release s release).edition_list
    ∧ clearedIfAbsent s.arch_list.selected (select_release s release).arch_list)
  ∧ ((edition ∈ s.edition_list.options → selectionInvariant (select_edition s edition))
    ∧ (∀ r, (select_edition s edition).release_list.selected = some r →
        r ∈ (select_edition s edition).release_list.options)
    ∧ (∀ a, (select_edition s edition).arch_list.selected = some a →
        a ∈ (select_edition s edition).arch_list.options)
    ∧ clearedIfAbsent s.release_list.selected (select_edition s edition).release_list
    ∧ clearedIfAbsent s.arch_list.selected (select_edition s edition).arch_list)
  ∧ ((arch ∈ s.arch_list.options → selectionInvariant (select_arch s arch))
    ∧ (∀ r, (select_arch s arch).release_list.selected = some r →
        r ∈ (select_arch s arch).release_list.options)
    ∧ (∀ e, (select_arch s arch).edition_list.selected = some e →
        e ∈ (select_arch s arch).edition_list.options)
    ∧ clearedIfAbsent s.release_list.selected (select_arch s arch).release_list
    ∧ clearedIfAbsent s.edition_list.selected (select_arch s arch).edition_list)

/-- C1: for every OptionSelection state and every select call, each of the two
freshly recomputed dimensions never retains a selection outside its fresh
candidate list and is cleared whenever its previous selection vanished from
it; the directly selected dimension keeps the invariant whenever its new
value was offered in its own current candidate list — the only values the
combo-box widget emits — so after any call no dimension holds a selected
value that is not a member of its own last-computed candidate list. -/
theorem c1_dependent_filter_consistency (s : OptionSelection)
    (release edition : String) (arch : Arch) :
    selectionsConsistentAfter s release edition arch := by
  have relEd : ∀ e, (select_release s release).edition_list.selected = some e →
      e ∈ (select_release s release).edition_list.options := by
    intro e' h
    rw [select_release_edition_list] at h
    have hm := set_values_selected_mem _ _ _ h
    rw [select_release_edition_list, set_values_options]
    exact hm
  have relAr : ∀ a, (select_release s release).arch_list.selected = some a →
      a ∈ (select_release s release).arch_list.options := by
    intro a' h
    rw [select_release_arch_list] at h
    have hm := set_values_selected_mem _ _ _ h
    rw [select_release_arch_list, set_values_options]
    exact hm
  have edRel : ∀ r, (select_edition s edition).release_list.selected = some r →
      r ∈ (select_edition s edition).release_list.options := by
    intro r' h
    rw [select_edition_release_list] at h
    have hm := set_values_selected_mem _ _ _ h
    rw [select_edition_release_list, set_values_options]
    exact hm
  have edAr : ∀ a, (select_edition s edition).arch_list.selected = some a →
      a ∈ (select_edition s edition).arch_list.options := by
    intro a' h
    rw [select_edition_arch_list] at h
    have hm := set_values_selected_mem _ _ _ h
    rw [select_edition_arch_list, set_values_options]
    exact hm
  have arRel : ∀ r, (select_arch s arch).release_list.selected = some r →
      r ∈ (select_arch s arch).release_list.options := by
    intro r' h
    rw [select_arch_release_list] at h
    have hm := set_values_selected_mem _ _ _ h
    rw [select_arch_release_list, set_values_options]
    exact hm
  have arEd : ∀ e, (select_arch s arch).edition_list.selected = some e →
      e ∈ (select_arch s arch).edition_list.options := by
    intro e' h
    rw [select_arch_edition_list] at h
    have hm := set_values_selected_mem _ _ _ h
    rw [select_arch_edition_list, set_values_options]
    exact hm
  refine ⟨⟨?_, relEd, relAr, ?_, ?_⟩, ⟨?_, edRel, edAr, ?_, ?_⟩,
    ⟨?_, arRel, arEd, ?_, ?_⟩⟩
  · intro hr
    refine ⟨?_, relEd, relAr⟩
    intro r' h
    rw [select_release_release_list] at h
    injection h with h
    subst h
    exact hr
  · intro e0 h0 habs
    rw [select_release_edition_list, set_values_options] at habs
    rw [select_release_edition_list]
    exact set_values_cleared _ _ _ h0 habs
  · intro a0 h0 habs
    rw [select_release_arch_list, set_values_options] at habs
    rw [select_release_arch_list]
    exact set_values_cleared _ _ _ h0 habs
  · intro he
    refine ⟨edRel, ?_, edAr⟩
    intro e' h
    rw [select_edition_edition_list] at h
    injection h with h
    subst h
    exact he
  · intro r0 h0 habs
    rw [select_edition_release_list, set_values_options] at habs
    rw [select_edition_release_list]
    exact set_values_cleared _ _ _ h0 habs
  · intro a0 h0 habs
    rw [select_edition_arch_list, set_values_options] at habs
    rw [select_edition_arch_list]
    exact set_values_cleared _ _ _ h0 habs
  · intro ha
    refine ⟨arRel, arEd, ?_⟩
    intro a' h
    rw [select_arch_arch_list] at h
    injection h with h
    subst h
    exact ha
  · intro r0 h0 habs
    rw [select_arch_release_list, set_values_options] at habs
    rw [select_arch_release_list]
    exact set_values_cleared _ _ _ h0 habs
  · intro e0 h0 habs
    rw [select_arch_edition_list, set_values_options] at habs
    rw [select_arch_edition_list]
    exact set_values_cleared _ _ _ h0 habs

/-- A concrete two-config state with all three candidate lists populated,
used to witness the dependent-filter consistency theorem. -/
def c1_state : OptionSelection :=
  { selected_os :=
      { name := "test", pretty_name := "Test OS", homepage := none,
        releases :=
          [ { release := "r1", edition := some "ed1", arch := .x86_64 .standard },
            { release := "r1", edition := some "ed2", arch := .aarch64 .standard } ] }
    release_list := { options := ["r1"], selected := none }
    edition_list := { options := ["ed1", "ed2"], selected := none }
    arch_list :=
      { options := [.x86_64 .standard, .aarch64 .standard], selected := none }
    cpu_cores := 2
    ram := 1073741824.0
    vm_name := none
    default_vm_name := none
    directory := "/tmp" }

/-- A state of the spec's Alpine scenario right after construction: an
edition-less catalog, so the edition candidate list is empty while the
release and architecture candidate lists are populated. -/
def c1_alpine_state : OptionSelection :=
  { selected_os :=
      { name := "alpine", pretty_name := "Alpine Linux", homepage := none,
        releases :=
          [ { release := "3.19", edition := none, arch := .x86_64 .standard },
            { release := "3.19", edition := none, arch := .aarch64 .standard },
            { release := "3.18", edition := none, arch := .x86_64 .standard } ] }
    release_list := { options := ["3.19", "3.18"], selected := none }
    edition_list := { options := [], selected := none }
    arch_list :=
      { options := [.x86_64 .standard, .aarch64 .standard],
        selected := some (.x86_64 .standard) }
    cpu_cores := 2
    ram := 1073741824.0
    vm_name := none
    default_vm_name := none
    directory := "/tmp" }

/-- Witness for C1: the nested membership hypotheses are discharged both at a
fully populated state and at the edition-less Alpine state, whose empty
edition candidate list leaves the release-selection case fully covered. -/
theorem c1_dependent_filter_consistency_witness :
    ("r1" ∈ c1_state.release_list.options
      ∧ "ed1" ∈ c1_state.edition_list.options
      ∧ Arch.x86_64 .standard ∈ c1_state.arch_list.options
      ∧ "3.18" ∈ c1_alpine_state.release_list.options)
      ∧ selectionInvariant (select_release c1_state "r1")
      ∧ selectionInvariant (select_edition c1_state "ed1")
      ∧ selectionInvariant (select_arch c1_state (Arch.x86_64 .standard))
      ∧ selectionInvariant (select_release c1_alpine_state "3.18") :=
  ⟨⟨by decide, by decide, by decide, by decide⟩,
    (c1_dependent_filter_consistency c1_state "r1" "ed1"
        (Arch.x86_64 .standard)).1.1 (by decide),
    (c1_dependent_filter_consistency c1_state "r1" "ed1"
        (Arch.x86_64 .standard)).2.1.1 (by decide),
    (c1_dependent_filter_consistency c1_state "r1" "ed1"
        (Arch.x86_64 .standard)).2.2.1 (by decide),
    (c1_dependent_filter_consistency c1_alpine_state "3.18" "unused"
        (Arch.x86_64 .standard)).1.1 (by decide)⟩
